import Mathlib

/-!
Verification of the Semgrep-Parser triage extension
(`src/SemgrepResultsPanel.ts`, `src/extension.ts`).

The development shallowly embeds the extension's state machine:

* the typed data model (`SemgrepResult`, the three-bucket record
  `TriageState`) mirrors the TypeScript `SemgrepResult` interface and the
  `_results` field of `SemgrepResultsPanel`;
* `handleTriage` embeds `_handleTriage` (findIndex / splice / push);
* `ingest` embeds the constructor's
  `results.map((r, index) => (\x7b ...r, id: item-index \x7d))`;
* a small JSON value type embeds the untyped documents flowing through
  `JSON.parse` / `JSON.stringify`, and `runLoad` / `runSave` / `runGoTo` /
  `runOpenResults` embed the corresponding message handlers together with
  their try/catch error reporting, the external outcomes (file dialog,
  file read/write, parse) being passed in as explicit `Outcome` inputs.
-/

/-- Start or end position of a finding (`start`/`end` fields of the
`SemgrepResult` TypeScript interface): `line` and `col` numbers. -/
structure Pos where
  line : Int
  col : Int
deriving DecidableEq, Repr

/-- The `extra` record of the `SemgrepResult` TypeScript interface. -/
structure Extra where
  message : String
  severity : String
  lines : String
deriving DecidableEq, Repr

/-- One raw scanner result, before ingestion: all fields of the
`SemgrepResult` TypeScript interface except the locally assigned `id`. -/
structure RawResult where
  check_id : String
  path : String
  start : Pos
  «end» : Pos
  extra : Extra
deriving DecidableEq, Repr

/-- The `SemgrepResult` TypeScript interface: a raw result augmented with
the unique tracking `id` assigned at ingestion time. -/
structure SemgrepResult where
  check_id : String
  path : String
  start : Pos
  «end» : Pos
  extra : Extra
  id : String
deriving DecidableEq, Repr

/-- Augment a raw result with an id, as the constructor's object spread
`\x7b ...r, id \x7d` does for well-shaped entries. -/
def RawResult.withId (r : RawResult) (i : String) : SemgrepResult :=
  { check_id := r.check_id, path := r.path, start := r.start,
    «end» := r.«end», extra := r.extra, id := i }

/-- The three triage categories: the keys of the `_results` record. -/
inductive Bucket where
  | untriaged : Bucket
  | issues : Bucket
  | falsePositives : Bucket
deriving DecidableEq, Repr

/-- The `_results` field of `SemgrepResultsPanel`: one ordered sequence of
findings per bucket. -/
structure TriageState where
  untriaged : List SemgrepResult
  issues : List SemgrepResult
  falsePositives : List SemgrepResult
deriving DecidableEq, Repr

/-- Indexing the state by bucket name: `this._results[b]`. -/
def TriageState.get (s : TriageState) : Bucket → List SemgrepResult
  | Bucket.untriaged => s.untriaged
  | Bucket.issues => s.issues
  | Bucket.falsePositives => s.falsePositives

/-- Functional update of one bucket of the state. -/
def TriageState.set (s : TriageState) : Bucket → List SemgrepResult → TriageState
  | Bucket.untriaged, l => { s with untriaged := l }
  | Bucket.issues, l => { s with issues := l }
  | Bucket.falsePositives, l => { s with falsePositives := l }

/-- The `_handleTriage` handler.  Source:

    const index = this._results[from].findIndex(r => r.id === id);
    if (index === -1) return; // Not found
    const item = this._results[from].splice(index, 1)[0];
    this._results[to].push(item);

`findIndex` is `List.findIdx?`, `splice(index, 1)[0]` reads the element at
`index` and is `List.eraseIdx` on the source bucket, `push` appends.  The
two bucket accesses are sequential mutations, so the push happens on the
state in which the item was already spliced out (this is what makes the
`f = t` case move the item to the end of the single bucket, as in JS). -/
def handleTriage (s : TriageState) (id : String) (f t : Bucket) : TriageState :=
  match (s.get f).findIdx? (fun r => r.id == id) with
  | none => s
  | some index =>
    match (s.get f)[index]? with
    | none => s
    | some item =>
      let s1 := s.set f ((s.get f).eraseIdx index)
      s1.set t (s1.get t ++ [item])

/-- Removal of the first element with the given id, returning it together
with the remaining list: the combined effect of `findIndex` followed by
`splice(index, 1)` on one bucket.  `handleTriage_eq_findRemove` proves it
equal to the literal findIndex/splice translation. -/
def findRemove (id : String) : List SemgrepResult → Option (SemgrepResult × List SemgrepResult)
  | [] => none
  | r :: rs =>
    if r.id = id then some (r, rs)
    else
      match findRemove id rs with
      | none => none
      | some (x, rest) => some (x, r :: rest)

/-- The id generated for the input element at position `index`:
the template literal `item-index` (decimal index). -/
def itemId (index : Nat) : String :=
  "item-" ++ Nat.repr index

/-- The panel constructor's preparation of `_results` (typed view):

    untriaged: results.map((r, index) => (\x7b ...r, id: item-index \x7d)),
    issues: [],
    falsePositives: []
-/
def ingest (results : List RawResult) : TriageState :=
  { untriaged := results.mapIdx (fun index r => r.withId (itemId index)),
    issues := [],
    falsePositives := [] }

/-- One `triage` message from the webview: `message.data` of
`_handleTriage`, carrying the item id and the two bucket names. -/
structure MoveOp where
  id : String
  f : Bucket
  t : Bucket
deriving DecidableEq, Repr

/-- Folding a sequence of `triage` commands over the state, in order. -/
def applyMoves (s : TriageState) : List MoveOp → TriageState
  | [] => s
  | m :: ms => applyMoves (handleTriage s m.id m.f m.t) ms

/-- All findings currently held, across the three buckets in order. -/
def TriageState.allFindings (s : TriageState) : List SemgrepResult :=
  s.untriaged ++ s.issues ++ s.falsePositives

/-- The ids currently held, across the three buckets in order. -/
def TriageState.allIds (s : TriageState) : List String :=
  s.allFindings.map (fun r => r.id)

/-- The multiset of findings held by the state (order forgotten). -/
def TriageState.findingsMS (s : TriageState) : Multiset SemgrepResult :=
  (s.allFindings : Multiset SemgrepResult)

/-- The partition invariant on ids: across all three buckets, no id occurs
twice (no duplicates within a bucket, no id in two buckets). -/
def idPartition (s : TriageState) : Prop :=
  s.allIds.Nodup

instance (s : TriageState) : Decidable (idPartition s) := by
  unfold idPartition; infer_instance

/-- The ids of one bucket. -/
def TriageState.idsIn (s : TriageState) (b : Bucket) : List String :=
  (s.get b).map (fun r => r.id)

/-- No id is present in two distinct buckets. -/
def noSharedIds (s : TriageState) : Prop :=
  ∀ b b' : Bucket, b ≠ b' → ∀ i : String, i ∈ s.idsIn b → i ∉ s.idsIn b'

/-- The findIndex/splice pair of `_handleTriage`, acting on one bucket,
computes exactly `findRemove`: the first element whose id matches is
extracted and the rest of the list is kept in order. -/
theorem findIdx_splice_eq_findRemove (id : String) (l : List SemgrepResult) :
    (match l.findIdx? (fun r => r.id == id) with
     | none => none
     | some i => (l[i]?).map (fun x => (x, l.eraseIdx i))) = findRemove id l := by
  induction l with
  | nil => rfl
  | cons a l ih =>
    by_cases h : a.id = id
    · simp [List.findIdx?_cons, h, findRemove]
    · rw [findRemove]
      rw [if_neg h]
      rw [← ih]
      rw [List.findIdx?_cons]
      have hba : (a.id == id) = false := by simp [h]
      rw [hba]
      simp only [Bool.false_eq_true, if_false, List.findIdx?_succ]
      cases hfi : l.findIdx? (fun r => r.id == id) with
      | none => simp
      | some i =>
        simp only [Option.map_some', List.getElem?_cons_succ, List.eraseIdx_cons_succ]
        cases hget : l[i]? with
        | none => simp
        | some x => simp

/-- `handleTriage` restated through `findRemove`: either the id is absent
from the source bucket and the state is returned untouched, or the first
matching item is removed from the source bucket and then appended to the
destination bucket of the resulting state. -/
theorem handleTriage_eq (s : TriageState) (id : String) (f t : Bucket) :
    handleTriage s id f t =
      match findRemove id (s.get f) with
      | none => s
      | some (item, rest) =>
        (s.set f rest).set t ((s.set f rest).get t ++ [item]) := by
  unfold handleTriage
  rw [← findIdx_splice_eq_findRemove]
  cases hfi : (s.get f).findIdx? (fun r => r.id == id) with
  | none => rfl
  | some i =>
    cases hget : (s.get f)[i]? with
    | none => simp [hget]
    | some x => simp [hget]

/-- `findRemove` returns `none` exactly when no element of the list has
the requested id. -/
theorem findRemove_eq_none_iff (id : String) (l : List SemgrepResult) :
    findRemove id l = none ↔ ∀ r ∈ l, r.id ≠ id := by
  induction l with
  | nil => simp [findRemove]
  | cons a l ih =>
    by_cases h : a.id = id
    · simp [findRemove, h]
    · rw [findRemove, if_neg h]
      cases hfr : findRemove id l with
      | none =>
        simp only [true_iff]
        intro r hr
        rcases List.mem_cons.mp hr with rfl | hr
        · exact h
        · exact (ih.mp hfr) r hr
      | some p =>
        obtain ⟨x, rest⟩ := p
        refine iff_of_false (by simp) ?_
        intro hall
        have hnone := (ih.mpr fun r hr => hall r (List.mem_cons_of_mem a hr))
        rw [hnone] at hfr
        exact Option.noConfusion hfr

/-- Successful `findRemove` decomposes the list around the first match:
the part before the match contains no matching id, the extracted item has
the requested id, and the remainder is the list with just that occurrence
removed (relative order kept). -/
theorem findRemove_eq_some (id : String) :
    ∀ (l : List SemgrepResult) (x : SemgrepResult) (rest : List SemgrepResult),
      findRemove id l = some (x, rest) →
      ∃ l1 l2, l = l1 ++ x :: l2 ∧ rest = l1 ++ l2 ∧ x.id = id ∧
        ∀ y ∈ l1, y.id ≠ id := by
  intro l
  induction l with
  | nil => intro x rest h; exact Option.noConfusion h
  | cons a l ih =>
    intro x rest h
    by_cases ha : a.id = id
    · rw [findRemove, if_pos ha] at h
      injection h with h2
      injection h2 with hx hrest
      subst hx
      subst hrest
      exact ⟨[], l, rfl, rfl, ha, by simp⟩
    · rw [findRemove, if_neg ha] at h
      cases hfr : findRemove id l with
      | none => rw [hfr] at h; exact Option.noConfusion h
      | some p =>
        obtain ⟨x', rest'⟩ := p
        rw [hfr] at h
        injection h with h2
        injection h2 with hx hrest
        subst hx
        subst hrest
        obtain ⟨l1, l2, rfl, rfl, hid, hnone⟩ := ih x' rest' hfr
        refine ⟨a :: l1, l2, rfl, rfl, hid, ?_⟩
        intro y hy
        rcases List.mem_cons.mp hy with rfl | hy
        · exact ha
        · exact hnone y hy

/-- One triage move never creates or destroys findings: the multiset of
all findings across the three buckets is exactly preserved, whatever the
arguments (including an absent id or equal source and destination). -/
theorem findingsMS_handleTriage (s : TriageState) (id : String) (f t : Bucket) :
    (handleTriage s id f t).findingsMS = s.findingsMS := by
  rw [handleTriage_eq]
  cases hfr : findRemove id (s.get f) with
  | none => rfl
  | some p =>
    obtain ⟨x, rest⟩ := p
    obtain ⟨l1, l2, hl, hrest, _, _⟩ := findRemove_eq_some id (s.get f) x rest hfr
    subst hrest
    cases f <;> cases t <;>
      (simp only [TriageState.get] at hl) <;>
      (simp only [TriageState.findingsMS, TriageState.allFindings,
        TriageState.get, TriageState.set]) <;>
      rw [hl] <;>
      (simp only [← Multiset.coe_add, ← Multiset.cons_coe,
        ← Multiset.singleton_add, Multiset.coe_singleton]) <;>
      abel

/-- The list of all findings after one move is a permutation of the list
before it. -/
theorem allFindings_perm_handleTriage (s : TriageState) (id : String) (f t : Bucket) :
    (handleTriage s id f t).allFindings.Perm s.allFindings :=
  Multiset.coe_eq_coe.mp (findingsMS_handleTriage s id f t)

/-- One move maps the id partition invariant forward. -/
theorem idPartition_handleTriage (s : TriageState) (h : idPartition s)
    (id : String) (f t : Bucket) : idPartition (handleTriage s id f t) := by
  unfold idPartition TriageState.allIds at h ⊢
  exact (((allFindings_perm_handleTriage s id f t).map _).nodup_iff).mpr h

/-- A whole sequence of moves preserves the multiset of findings. -/
theorem findingsMS_applyMoves (ms : List MoveOp) :
    ∀ s : TriageState, (applyMoves s ms).findingsMS = s.findingsMS := by
  induction ms with
  | nil => intro s; rfl
  | cons m ms ih =>
    intro s
    rw [applyMoves, ih, findingsMS_handleTriage]

/-- A whole sequence of moves preserves the id partition invariant. -/
theorem idPartition_applyMoves (ms : List MoveOp) :
    ∀ s : TriageState, idPartition s → idPartition (applyMoves s ms) := by
  induction ms with
  | nil => intro s h; exact h
  | cons m ms ih =>
    intro s h
    exact ih _ (idPartition_handleTriage s h m.id m.f m.t)

/-- Under the id partition invariant, no id belongs to two distinct
buckets. -/
theorem noSharedIds_of_idPartition (s : TriageState) (h : idPartition s) :
    noSharedIds s := by
  have hids : s.allIds =
      s.idsIn Bucket.untriaged ++ s.idsIn Bucket.issues ++
        s.idsIn Bucket.falsePositives := by
    simp [TriageState.allIds, TriageState.allFindings, TriageState.idsIn,
      TriageState.get]
  unfold idPartition at h
  rw [hids, List.append_assoc, List.nodup_append] at h
  obtain ⟨hu, hifp, hdisj⟩ := h
  rw [List.nodup_append] at hifp
  obtain ⟨hi, hfp, hdisj2⟩ := hifp
  rw [List.disjoint_append_right] at hdisj
  obtain ⟨hui, hufp⟩ := hdisj
  intro b b' hne i hib hib'
  cases b <;> cases b' <;>
    first
      | exact hne rfl
      | exact hui hib hib'
      | exact hufp hib hib'
      | exact hdisj2 hib hib'
      | exact hui hib' hib
      | exact hufp hib' hib
      | exact hdisj2 hib' hib

/-- Decimal digit string of a natural number, most significant digit
first: the recursive specification of `Nat.toDigits 10` (which the
template literal id `item-index` renders through `Nat.repr`). -/
def decRepr (n : Nat) : List Char :=
  if _h : n < 10 then [Nat.digitChar n]
  else decRepr (n / 10) ++ [Nat.digitChar (n % 10)]
termination_by n
decreasing_by exact Nat.div_lt_self (by omega) (by omega)

/-- With enough fuel, `Nat.toDigitsCore` computes `decRepr` prepended to
its accumulator. -/
theorem toDigitsCore_eq_decRepr (fuel : Nat) :
    ∀ (n : Nat) (acc : List Char), n < fuel →
      Nat.toDigitsCore 10 fuel n acc = decRepr n ++ acc := by
  induction fuel with
  | zero => intro n acc h; exact absurd h (Nat.not_lt_zero n)
  | succ fuel ih =>
    intro n acc h
    simp only [Nat.toDigitsCore]
    by_cases h10 : n / 10 = 0
    · have hn : n < 10 := by omega
      rw [if_pos h10, decRepr, dif_pos hn, Nat.mod_eq_of_lt hn]
      rfl
    · rw [if_neg h10]
      have hlt : n / 10 < fuel := by
        have hd : n / 10 < n := Nat.div_lt_self (by omega) (by omega)
        omega
      rw [decRepr, dif_neg (by omega : ¬ n < 10)]
      rw [ih (n / 10) (Nat.digitChar (n % 10) :: acc) hlt]
      rw [List.append_assoc]
      rfl

/-- `Nat.toDigits 10` equals its recursive specification. -/
theorem toDigits_eq_decRepr (n : Nat) : Nat.toDigits 10 n = decRepr n := by
  rw [Nat.toDigits, toDigitsCore_eq_decRepr (n + 1) n [] (Nat.lt_succ_self n),
    List.append_nil]

/-- Numeric value of a decimal digit character. -/
def digitVal (c : Char) : Nat :=
  c.toNat - 48

theorem digitVal_digitChar (d : Nat) (h : d < 10) :
    digitVal (Nat.digitChar d) = d := by
  interval_cases d <;> rfl

/-- Folding the decimal digits of `n` back into a number recovers `n`
(below any accumulated high-order part). -/
theorem foldl_decRepr (n : Nat) :
    ∀ a : Nat, (decRepr n).foldl (fun x c => 10 * x + digitVal c) a
      = a * 10 ^ (decRepr n).length + n := by
  induction n using Nat.strong_induction_on with
  | _ n ih =>
    intro a
    by_cases h : n < 10
    · rw [decRepr, dif_pos h]
      simp only [List.foldl, List.length_cons, List.length_nil]
      rw [digitVal_digitChar n h]
      ring
    · have hd : n / 10 < n := Nat.div_lt_self (by omega) (by omega)
      rw [decRepr, dif_neg h]
      rw [List.foldl_append]
      rw [ih (n / 10) hd a]
      simp only [List.foldl, List.length_append, List.length_cons,
        List.length_nil]
      rw [digitVal_digitChar (n % 10) (Nat.mod_lt _ (by omega))]
      rw [pow_add]
      ring_nf
      omega

theorem decRepr_injective : Function.Injective decRepr := by
  intro m n h
  have hm := foldl_decRepr m 0
  have hn := foldl_decRepr n 0
  rw [h] at hm
  omega

/-- Decimal rendering of naturals is injective. -/
theorem natRepr_injective : Function.Injective Nat.repr := by
  intro m n h
  apply decRepr_injective
  rw [← toDigits_eq_decRepr, ← toDigits_eq_decRepr]
  unfold Nat.repr at h
  have hdata := congrArg String.data h
  simpa [List.asString] using hdata

/-- Distinct indices receive distinct generated ids. -/
theorem itemId_injective : Function.Injective itemId := by
  intro m n h
  apply natRepr_injective
  unfold itemId at h
  have hdata := congrArg String.data h
  simp only [String.data_append] at hdata
  exact String.ext (List.append_cancel_left hdata)

theorem TriageState.get_set_same (s : TriageState) (b : Bucket)
    (l : List SemgrepResult) : (s.set b l).get b = l := by
  cases b <;> rfl

theorem TriageState.get_set_other (s : TriageState) (b b' : Bucket)
    (l : List SemgrepResult) (h : b ≠ b') : (s.set b l).get b' = s.get b' := by
  cases b <;> cases b' <;> first | rfl | exact absurd rfl h

/-- The bucket-wise ids of the ingestion result, as a function of the
batch's indices. -/
theorem ingest_ids_eq (results : List RawResult) :
    ∀ g : Nat → String,
      ((results.mapIdx fun i r => r.withId (g i)).map fun r => r.id)
        = (List.range results.length).map g := by
  induction results with
  | nil => intro g; rfl
  | cons a l ih =>
    intro g
    rw [List.mapIdx_cons, List.map_cons, List.length_cons,
      List.range_succ_eq_map, List.map_cons, List.map_map]
    congr 1
    exact ih fun i => g (i + 1)

/-- C4: `ingest` puts exactly the input elements, in order, into the
untriaged bucket, each augmented with the id `item-<index>` for its input
position; these ids are pairwise distinct within the batch, and the
issues and falsePositives buckets are both empty. -/
theorem ingest_spec (results : List RawResult) :
    (ingest results).untriaged.length = results.length ∧
    (∀ i : Nat, (ingest results).untriaged[i]? =
      (results[i]?).map fun r => r.withId (itemId i)) ∧
    ((ingest results).untriaged.map fun r => r.id).Nodup ∧
    (ingest results).issues = [] ∧
    (ingest results).falsePositives = [] := by
  refine ⟨?_, ?_, ?_, rfl, rfl⟩
  · rw [ingest]
    exact List.length_mapIdx
  · intro i
    rw [ingest]
    exact List.getElem?_mapIdx
  · rw [ingest]
    rw [ingest_ids_eq results itemId]
    exact (List.nodup_range _).map itemId_injective

/-- C3: when no element of the source bucket carries the requested id,
`_handleTriage` returns before touching anything: all three buckets are
left exactly unchanged (and the handler has no error path at all). -/
theorem move_absent_id_noop (s : TriageState) (id : String) (f t : Bucket)
    (h : ∀ r ∈ s.get f, r.id ≠ id) : handleTriage s id f t = s := by
  rw [handleTriage_eq, (findRemove_eq_none_iff id (s.get f)).mpr h]

/-- C10: a move modifies no field of any finding: every finding object
present in a bucket after the move already was, with identical fields,
in a bucket before the move. -/
theorem move_frame (s : TriageState) (id : String) (f t : Bucket)
    (r : SemgrepResult) (h : r ∈ (handleTriage s id f t).allFindings) :
    r ∈ s.allFindings :=
  ((allFindings_perm_handleTriage s id f t).mem_iff).mp h

/-- C5: when the source bucket holds a finding with the requested id, the
move removes the first such finding from the source (keeping the relative
order of the remaining ones) and appends it at the end of the destination
bucket; the third bucket is untouched.  For `f = t` the two effects
compose on the single bucket. -/
theorem move_present (s : TriageState) (id : String) (f t : Bucket)
    (h : ∃ r ∈ s.get f, r.id = id) :
    ∃ l1 x l2, s.get f = l1 ++ x :: l2 ∧ x.id = id ∧
      (∀ y ∈ l1, y.id ≠ id) ∧
      (f ≠ t →
        (handleTriage s id f t).get f = l1 ++ l2 ∧
        (handleTriage s id f t).get t = s.get t ++ [x]) ∧
      (f = t → (handleTriage s id f t).get t = (l1 ++ l2) ++ [x]) ∧
      (∀ b : Bucket, b ≠ f → b ≠ t →
        (handleTriage s id f t).get b = s.get b) := by
  cases hfr : findRemove id (s.get f) with
  | none =>
    exfalso
    obtain ⟨r, hr, hid⟩ := h
    exact ((findRemove_eq_none_iff id (s.get f)).mp hfr) r hr hid
  | some p =>
    obtain ⟨x, rest⟩ := p
    obtain ⟨l1, l2, hl, hrest, hid, hpre⟩ :=
      findRemove_eq_some id (s.get f) x rest hfr
    subst hrest
    refine ⟨l1, x, l2, hl, hid, hpre, ?_, ?_, ?_⟩
    · intro hne
      rw [handleTriage_eq, hfr]
      constructor
      · rw [TriageState.get_set_other _ _ _ _ (Ne.symm hne),
          TriageState.get_set_same]
      · rw [TriageState.get_set_same,
          TriageState.get_set_other _ _ _ _ hne]
    · intro heq
      subst heq
      rw [handleTriage_eq, hfr]
      rw [TriageState.get_set_same, TriageState.get_set_same]
    · intro b hbf hbt
      rw [handleTriage_eq, hfr]
      rw [TriageState.get_set_other _ _ _ _ (Ne.symm hbt),
        TriageState.get_set_other _ _ _ _ (Ne.symm hbf)]

/-- C9: moving an id within one and the same bucket relocates the first
matching finding to the end of that bucket, producing a permutation of
the bucket (nothing lost, no duplicate introduced — the partition
invariant is preserved), and leaves the other two buckets unchanged. -/
theorem move_same_bucket (s : TriageState) (hpart : idPartition s)
    (id : String) (b : Bucket) (h : ∃ r ∈ s.get b, r.id = id) :
    ∃ l1 x l2, s.get b = l1 ++ x :: l2 ∧ x.id = id ∧
      (handleTriage s id b b).get b = (l1 ++ l2) ++ [x] ∧
      ((handleTriage s id b b).get b).Perm (s.get b) ∧
      idPartition (handleTriage s id b b) ∧
      (∀ b' : Bucket, b' ≠ b → (handleTriage s id b b).get b' = s.get b') := by
  obtain ⟨l1, x, l2, hl, hid, hpre, _, hsame, hother⟩ :=
    move_present s id b b h
  refine ⟨l1, x, l2, hl, hid, hsame rfl, ?_, ?_, ?_⟩
  · rw [hsame rfl, hl, List.append_assoc]
    exact (List.perm_append_singleton x l2).append_left l1
  · exact idPartition_handleTriage s hpart id b b
  · intro b' hb'
    exact hother b' hb' hb'

/-- C1: starting from any state satisfying the partition invariant, after
each move of an arbitrary move sequence the multiset of findings across
the three buckets equals the multiset before that move (no finding
created or destroyed), the invariant still holds, and no id appears in
more than one bucket. -/
theorem move_sequence_partition (s : TriageState) (h : idPartition s)
    (ms : List MoveOp) (n : Nat) :
    (applyMoves s (ms.take (n + 1))).findingsMS
        = (applyMoves s (ms.take n)).findingsMS ∧
    idPartition (applyMoves s (ms.take n)) ∧
    noSharedIds (applyMoves s (ms.take n)) := by
  refine ⟨?_, ?_, ?_⟩
  · rw [findingsMS_applyMoves, findingsMS_applyMoves]
  · exact idPartition_applyMoves _ s h
  · exact noSharedIds_of_idPartition _ (idPartition_applyMoves _ s h)

/-- JSON values: the documents flowing through `JSON.parse` and
`JSON.stringify` (scanner output, progress files, and the untyped
`_results` slot after a progress load).  Numbers are modelled as integers,
which covers every number the extension itself ever writes. -/
inductive Json where
  | null : Json
  | bool (b : Bool) : Json
  | num (n : Int) : Json
  | str (s : String) : Json
  | arr (elems : List Json) : Json
  | obj (fields : List (String × Json)) : Json

/-- First binding of a key in an object's field list (JS property
lookup; our encoders never produce duplicate keys). -/
def lookupField : List (String × Json) → String → Option Json
  | [], _ => none
  | (k', v) :: rest, k => if k' = k then some v else lookupField rest k

/-- JS property access `j.k`: a value on objects that carry the key,
`undefined` (here `none`) on everything else. -/
def Json.getField (j : Json) (k : String) : Option Json :=
  match j with
  | Json.obj fields => lookupField fields k
  | _ => none

/-- JS truthiness of a value. -/
def Json.truthy : Json → Bool
  | Json.null => false
  | Json.bool b => b
  | Json.num n => if n = 0 then false else true
  | Json.str s => if s = "" then false else true
  | Json.arr _ => true
  | Json.obj _ => true

/-- JS truthiness of a possibly-`undefined` value. -/
def truthyOpt : Option Json → Bool
  | none => false
  | some j => j.truthy

def Json.asStr : Json → Option String
  | Json.str s => some s
  | _ => none

def Json.asNum : Json → Option Int
  | Json.num n => some n
  | _ => none

def Json.asArr : Json → Option (List Json)
  | Json.arr elems => some elems
  | _ => none

/-- JSON form of a position, with the field order of the data the
extension handles. -/
def Pos.toJson (p : Pos) : Json :=
  Json.obj [("line", Json.num p.line), ("col", Json.num p.col)]

/-- Reading a position back from its JSON form. -/
def Pos.ofJson (j : Json) : Option Pos :=
  match (j.getField "line").bind Json.asNum,
        (j.getField "col").bind Json.asNum with
  | some l, some c => some { line := l, col := c }
  | _, _ => none

def Extra.toJson (e : Extra) : Json :=
  Json.obj [("message", Json.str e.message), ("severity", Json.str e.severity),
    ("lines", Json.str e.lines)]

def Extra.ofJson (j : Json) : Option Extra :=
  match (j.getField "message").bind Json.asStr,
        (j.getField "severity").bind Json.asStr,
        (j.getField "lines").bind Json.asStr with
  | some m, some sv, some ln => some { message := m, severity := sv, lines := ln }
  | _, _, _ => none

/-- JSON form of one finding, fields in interface order, id included:
the shape `JSON.stringify` emits for a bucket entry in `_saveProgress`. -/
def SemgrepResult.toJson (r : SemgrepResult) : Json :=
  Json.obj [("check_id", Json.str r.check_id), ("path", Json.str r.path),
    ("start", r.start.toJson), ("end", r.«end».toJson),
    ("extra", r.extra.toJson), ("id", Json.str r.id)]

/-- Reading one finding back from its JSON form. -/
def SemgrepResult.ofJson (j : Json) : Option SemgrepResult :=
  match (j.getField "check_id").bind Json.asStr,
        (j.getField "path").bind Json.asStr,
        (j.getField "start").bind Pos.ofJson,
        (j.getField "end").bind Pos.ofJson,
        (j.getField "extra").bind Extra.ofJson,
        (j.getField "id").bind Json.asStr with
  | some c, some p, some st, some en, some ex, some i =>
      some { check_id := c, path := p, start := st, «end» := en,
             extra := ex, id := i }
  | _, _, _, _, _, _ => none

/-- Element-wise decoding of a bucket array. -/
def decodeFindings : List Json → Option (List SemgrepResult)
  | [] => some []
  | j :: rest =>
    match SemgrepResult.ofJson j, decodeFindings rest with
    | some r, some rs => some (r :: rs)
    | _, _ => none

/-- Serialization of the whole state, as `_saveProgress` persists it:
a JSON object with the three bucket keys in the order of the `_results`
record, each an array of finding objects. -/
def TriageState.toJson (s : TriageState) : Json :=
  Json.obj [("untriaged", Json.arr (s.untriaged.map SemgrepResult.toJson)),
    ("issues", Json.arr (s.issues.map SemgrepResult.toJson)),
    ("falsePositives", Json.arr (s.falsePositives.map SemgrepResult.toJson))]

/-- Reading a whole state back from a persisted JSON document: the three
bucket keys, each an array of findings. -/
def TriageState.ofJson (j : Json) : Option TriageState :=
  match (j.getField "untriaged").bind Json.asArr,
        (j.getField "issues").bind Json.asArr,
        (j.getField "falsePositives").bind Json.asArr with
  | some u, some i, some fp =>
    match decodeFindings u, decodeFindings i, decodeFindings fp with
    | some u', some i', some fp' =>
        some { untriaged := u', issues := i', falsePositives := fp' }
    | _, _, _ => none
  | _, _, _ => none

theorem pos_roundtrip (p : Pos) : Pos.ofJson p.toJson = some p := rfl

theorem extra_roundtrip (e : Extra) : Extra.ofJson e.toJson = some e := rfl

theorem semgrepResult_roundtrip (r : SemgrepResult) :
    SemgrepResult.ofJson r.toJson = some r := rfl

theorem decodeFindings_map (l : List SemgrepResult) :
    decodeFindings (l.map SemgrepResult.toJson) = some l := by
  induction l with
  | nil => rfl
  | cons r rs ih =>
    rw [List.map_cons, decodeFindings, semgrepResult_roundtrip, ih]

theorem triageState_roundtrip (s : TriageState) :
    TriageState.ofJson s.toJson = some s := by
  show (match decodeFindings (s.untriaged.map SemgrepResult.toJson),
          decodeFindings (s.issues.map SemgrepResult.toJson),
          decodeFindings (s.falsePositives.map SemgrepResult.toJson) with
        | some u', some i', some fp' =>
            some { untriaged := u', issues := i', falsePositives := fp'
                   : TriageState }
        | _, _, _ => none) = some s
  rw [decodeFindings_map, decodeFindings_map, decodeFindings_map]

/-- C2: serializing any state reachable through `ingest` followed by an
arbitrary sequence of moves, and deserializing the resulting JSON
document, reproduces the state exactly — same three buckets, same
findings with all their fields including id, in the same order. -/
theorem serialize_deserialize_roundtrip (results : List RawResult)
    (ms : List MoveOp) :
    TriageState.ofJson (TriageState.toJson (applyMoves (ingest results) ms))
      = some (applyMoves (ingest results) ms) :=
  triageState_roundtrip (applyMoves (ingest results) ms)

/-- The enumerable own properties contributed by `...v` in a JS object
literal: an object spreads its fields, a string or an array spreads its
index properties, and every other primitive contributes nothing. -/
def spreadFields : Json → List (String × Json)
  | Json.obj fields => fields
  | Json.str s => s.data.mapIdx fun i c => (Nat.repr i, Json.str (String.singleton c))
  | Json.arr elems => elems.mapIdx fun i v => (Nat.repr i, v)
  | _ => []

/-- Setting a key in a field list as a JS object literal does when the
key is written after a spread: an existing binding keeps its position and
gets the new value, otherwise the key is appended. -/
def setFieldList : List (String × Json) → String → Json → List (String × Json)
  | [], k, v => [(k, v)]
  | (k', v') :: rest, k, v =>
    if k' = k then (k', v) :: rest else (k', v') :: setFieldList rest k v

/-- The JS object literal `\x7b ...r, id: s \x7d` on an arbitrary value. -/
def withIdJson (r : Json) (s : String) : Json :=
  Json.obj (setFieldList (spreadFields r) "id" (Json.str s))

/-- The panel constructor's `_results` on the raw (untyped) entries of
the `results` array, which are not validated individually:

    untriaged: results.map((r, index) => (\x7b ...r, id: item-index \x7d)),
    issues: [],
    falsePositives: []
-/
def ingestJson (results : List Json) : Json :=
  Json.obj [("untriaged",
      Json.arr (results.mapIdx fun index r => withIdJson r (itemId index))),
    ("issues", Json.arr []),
    ("falsePositives", Json.arr [])]

/-- The `activate` guard on a parsed results document:

    if (resultsJson && Array.isArray(resultsJson.results)) ...

Returns the `results` array when the guard passes. -/
def checkResultsField (doc : Json) : Option (List Json) :=
  if doc.truthy then
    match doc.getField "results" with
    | some (Json.arr elems) => some elems
    | _ => none
  else none

/-- The dead validation guard of `_loadProgress`:

    if (true || (loadedData.untriaged && loadedData.issues
                 && loadedData.falsePositives))
-/
def loadCheck (loadedData : Json) : Bool :=
  true || (truthyOpt (loadedData.getField "untriaged")
    && truthyOpt (loadedData.getField "issues")
    && truthyOpt (loadedData.getField "falsePositives"))

/-- The state update and user report of `_loadProgress` once a document
has been parsed: the `_results` slot (held as an untyped JSON value, as
in JS) either becomes the loaded document or is left as it was. -/
def applyLoad (cur : Json) (loadedData : Json) : Json × List String :=
  if loadCheck loadedData then
    (loadedData, ["Semgrep triage progress loaded successfully!"])
  else
    (cur, ["Invalid progress file structure."])

/-- Outcome of a call into an external collaborator (file system,
JSON.parse, editor), as observed by the surrounding try/catch: a value,
or an exception carrying a message. -/
inductive Outcome (α : Type) where
  | ok (val : α) : Outcome α
  | thrown (msg : String) : Outcome α

/-- The `_loadProgress` handler.  `picked` tells whether the open dialog
returned a file; `readRes` is the outcome of reading it, `parseRes` the
outcome of `JSON.parse` on its content.  Returns the new `_results` slot
and the messages shown to the user; any exception is caught and reported
with `Failed to load progress:`. -/
def runLoad (cur : Json) (picked : Bool) (readRes : Outcome String)
    (parseRes : Outcome Json) : Json × List String :=
  if picked then
    match readRes with
    | Outcome.thrown m => (cur, ["Failed to load progress: " ++ m])
    | Outcome.ok _ =>
      match parseRes with
      | Outcome.thrown m => (cur, ["Failed to load progress: " ++ m])
      | Outcome.ok loadedData => applyLoad cur loadedData
  else (cur, [])

/-- The `_saveProgress` handler: prompts for a file and writes the
stringified data; it never assigns `_results`.  `picked` tells whether
the save dialog returned a file, `writeRes` is the outcome of the
write. -/
def runSave (cur : Json) (picked : Bool) (writeRes : Outcome Unit) :
    Json × List String :=
  if picked then
    match writeRes with
    | Outcome.thrown m => (cur, ["Failed to save progress: " ++ m])
    | Outcome.ok _ => (cur, ["Semgrep triage progress saved successfully!"])
  else (cur, [])

/-- The `_goToLocation` handler: opens the target document and reveals
the position; it never assigns `_results`.  `openRes` is the outcome of
the editor calls inside the try block. -/
def runGoTo (cur : Json) (p : String) (openRes : Outcome Unit) :
    Json × List String :=
  match openRes with
  | Outcome.thrown _ => (cur, ["Could not open file: " ++ p ++ ". (Is the path correct?)"])
  | Outcome.ok _ => (cur, [])

/-- The `semgrep-triage.openResults` command of `activate`: pick a file,
read it, parse it, validate the `results` field, and only then create or
replace the panel (whose `_results` the constructor builds via
`ingestJson`).  `prior` is the `_results` of the current panel, if any;
it is returned untouched on every failure path. -/
def runOpenResults (prior : Option Json) (picked : Bool)
    (readRes : Outcome String) (parseRes : Outcome Json) :
    Option Json × List String :=
  if picked then
    match readRes with
    | Outcome.thrown m => (prior, ["Failed to read or parse file: " ++ m])
    | Outcome.ok _ =>
      match parseRes with
      | Outcome.thrown m => (prior, ["Failed to read or parse file: " ++ m])
      | Outcome.ok doc =>
        match checkResultsField doc with
        | some elems => (some (ingestJson elems), [])
        | none =>
          (prior, ["Invalid Semgrep results format: \"results\" array not found."])
  else (prior, [])

/-- C6: a parsed ingestion document whose `results` field is missing or
not an array is rejected — an error is reported and the prior panel
state survives unchanged — while a document whose `results` field is an
array always proceeds to panel creation, whatever the individual
entries look like. -/
theorem ingest_validation (prior : Option Json) (content : String) (doc : Json) :
    (doc.getField "results" = none → checkResultsField doc = none) ∧
    (∀ v : Json, doc.getField "results" = some v → (∀ elems, v ≠ Json.arr elems) →
      checkResultsField doc = none) ∧
    (∀ elems : List Json, doc.getField "results" = some (Json.arr elems) →
      checkResultsField doc = some elems) ∧
    (checkResultsField doc = none →
      runOpenResults prior true (Outcome.ok content) (Outcome.ok doc)
        = (prior, ["Invalid Semgrep results format: \"results\" array not found."])) ∧
    (∀ elems : List Json, checkResultsField doc = some elems →
      runOpenResults prior true (Outcome.ok content) (Outcome.ok doc)
        = (some (ingestJson elems), [])) := by
  refine ⟨?_, ?_, ?_, ?_, ?_⟩
  · intro h
    unfold checkResultsField
    rw [h]
    cases htr : doc.truthy <;> simp
  · intro v hv hne
    unfold checkResultsField
    rw [hv]
    cases v with
    | arr elems => exact absurd rfl (hne elems)
    | null => cases htr : doc.truthy <;> simp
    | bool b => cases htr : doc.truthy <;> simp
    | num n => cases htr : doc.truthy <;> simp
    | str s => cases htr : doc.truthy <;> simp
    | obj fields => cases htr : doc.truthy <;> simp
  · intro elems h
    cases doc with
    | obj fields =>
      simp only [Json.getField] at h
      show (match lookupField fields "results" with
            | some (Json.arr elems) => some elems
            | _ => none) = some elems
      rw [h]
    | null => exact Option.noConfusion h
    | bool b => exact Option.noConfusion h
    | num n => exact Option.noConfusion h
    | str s => exact Option.noConfusion h
    | arr es => exact Option.noConfusion h
  · intro h
    show (match checkResultsField doc with
          | some elems => (some (ingestJson elems), ([] : List String))
          | none =>
            (prior,
              ["Invalid Semgrep results format: \"results\" array not found."]))
        = (prior, ["Invalid Semgrep results format: \"results\" array not found."])
    rw [h]
  · intro elems h
    show (match checkResultsField doc with
          | some elems => (some (ingestJson elems), ([] : List String))
          | none =>
            (prior,
              ["Invalid Semgrep results format: \"results\" array not found."]))
        = (some (ingestJson elems), [])
    rw [h]

/-- C7: for every successfully parsed document, `_loadProgress` replaces
the entire `_results` slot with the parsed value unconditionally: the
guard `if (true || ...)` is constantly true, so the
`Invalid progress file structure.` branch is unreachable for parseable
input, whatever keys the document has or lacks. -/
theorem deserialize_unconditional (cur loadedData : Json) :
    loadCheck loadedData = true ∧
    applyLoad cur loadedData
      = (loadedData, ["Semgrep triage progress loaded successfully!"]) ∧
    runLoad cur true (Outcome.ok "") (Outcome.ok loadedData)
      = (loadedData, ["Semgrep triage progress loaded successfully!"]) := by
  refine ⟨rfl, rfl, rfl⟩

/-- C8: every failing operation is caught, reported to the user, and
leaves the state slot exactly as it was: a read or parse failure during
load, any save-dialog outcome (save never mutates state), a navigation
failure, and a read or parse failure during ingestion all return the
prior state unchanged. -/
theorem failures_preserve_state (cur : Json) (prior : Option Json)
    (m content p : String) (parseRes : Outcome Json) (writeRes : Outcome Unit) :
    runLoad cur true (Outcome.thrown m) parseRes
      = (cur, ["Failed to load progress: " ++ m]) ∧
    runLoad cur true (Outcome.ok content) (Outcome.thrown m)
      = (cur, ["Failed to load progress: " ++ m]) ∧
    (runSave cur true writeRes).1 = cur ∧
    runSave cur true (Outcome.thrown m)
      = (cur, ["Failed to save progress: " ++ m]) ∧
    runGoTo cur p (Outcome.thrown m)
      = (cur, ["Could not open file: " ++ p ++ ". (Is the path correct?)"]) ∧
    runOpenResults prior true (Outcome.thrown m) parseRes
      = (prior, ["Failed to read or parse file: " ++ m]) ∧
    runOpenResults prior true (Outcome.ok content) (Outcome.thrown m)
      = (prior, ["Failed to read or parse file: " ++ m]) := by
  refine ⟨rfl, rfl, ?_, rfl, rfl, rfl, rfl⟩
  cases writeRes <;> rfl

/-- A concrete finding, used by the witness theorems. -/
def exFinding (i : String) : SemgrepResult :=
  { check_id := "rule", path := "a.py", start := { line := 1, col := 1 },
    «end» := { line := 1, col := 2 },
    extra := { message := "m", severity := "ERROR", lines := "x" }, id := i }

/-- A concrete two-finding state, used by the witness theorems. -/
def exState : TriageState :=
  { untriaged := [exFinding "item-0", exFinding "item-1"],
    issues := [], falsePositives := [] }

/-- A concrete move command, used by the witness theorems. -/
def exMove : MoveOp :=
  { id := "item-0", f := Bucket.untriaged, t := Bucket.issues }

/-- Witness: the C1 theorem applied to a concrete invariant-satisfying
state and a concrete one-move sequence. -/
theorem move_sequence_partition_witness :
    idPartition exState ∧
    ((applyMoves exState ([exMove].take (0 + 1))).findingsMS
        = (applyMoves exState ([exMove].take 0)).findingsMS ∧
      idPartition (applyMoves exState ([exMove].take 0)) ∧
      noSharedIds (applyMoves exState ([exMove].take 0))) :=
  ⟨by decide, move_sequence_partition exState (by decide) [exMove] 0⟩

/-- Witness: the C3 theorem applied to a concrete state and an id absent
from the source bucket. -/
theorem move_absent_id_noop_witness :
    (∀ r ∈ exState.get Bucket.untriaged, r.id ≠ "item-99") ∧
    handleTriage exState "item-99" Bucket.untriaged Bucket.issues = exState :=
  ⟨by decide,
   move_absent_id_noop exState "item-99" Bucket.untriaged Bucket.issues
     (by decide)⟩

/-- Witness: the C5 theorem applied to a concrete state holding the
requested id in the source bucket. -/
theorem move_present_witness :
    (∃ r ∈ exState.get Bucket.untriaged, r.id = "item-0") ∧
    (∃ l1 x l2, exState.get Bucket.untriaged = l1 ++ x :: l2 ∧
      x.id = "item-0" ∧
      (∀ y ∈ l1, y.id ≠ "item-0") ∧
      (Bucket.untriaged ≠ Bucket.issues →
        (handleTriage exState "item-0" Bucket.untriaged Bucket.issues).get
            Bucket.untriaged = l1 ++ l2 ∧
        (handleTriage exState "item-0" Bucket.untriaged Bucket.issues).get
            Bucket.issues = exState.get Bucket.issues ++ [x]) ∧
      (Bucket.untriaged = Bucket.issues →
        (handleTriage exState "item-0" Bucket.untriaged Bucket.issues).get
            Bucket.issues = (l1 ++ l2) ++ [x]) ∧
      (∀ b : Bucket, b ≠ Bucket.untriaged → b ≠ Bucket.issues →
        (handleTriage exState "item-0" Bucket.untriaged Bucket.issues).get b
          = exState.get b)) :=
  ⟨by decide,
   move_present exState "item-0" Bucket.untriaged Bucket.issues (by decide)⟩

/-- Witness: the C9 theorem applied to a concrete state, moving an id
within its own bucket. -/
theorem move_same_bucket_witness :
    (idPartition exState ∧
      ∃ r ∈ exState.get Bucket.untriaged, r.id = "item-0") ∧
    (∃ l1 x l2, exState.get Bucket.untriaged = l1 ++ x :: l2 ∧
      x.id = "item-0" ∧
      (handleTriage exState "item-0" Bucket.untriaged Bucket.untriaged).get
          Bucket.untriaged = (l1 ++ l2) ++ [x] ∧
      ((handleTriage exState "item-0" Bucket.untriaged Bucket.untriaged).get
          Bucket.untriaged).Perm (exState.get Bucket.untriaged) ∧
      idPartition
        (handleTriage exState "item-0" Bucket.untriaged Bucket.untriaged) ∧
      (∀ b' : Bucket, b' ≠ Bucket.untriaged →
        (handleTriage exState "item-0" Bucket.untriaged Bucket.untriaged).get
            b' = exState.get b')) :=
  ⟨⟨by decide, by decide⟩,
   move_same_bucket exState (by decide) "item-0" Bucket.untriaged (by decide)⟩

/-- Witness: the C10 theorem applied to a concrete state and a concrete
finding present after the move. -/
theorem move_frame_witness :
    exFinding "item-0" ∈
      (handleTriage exState "item-0" Bucket.untriaged
        Bucket.issues).allFindings ∧
    exFinding "item-0" ∈ exState.allFindings :=
  ⟨by decide,
   move_frame exState "item-0" Bucket.untriaged Bucket.issues
     (exFinding "item-0") (by decide)⟩

/-- Witness: the C6 theorem applied to a concrete document without a
`results` array (rejected, prior state kept) and to a concrete document
whose `results` array holds a non-object entry (accepted unvalidated). -/
theorem ingest_validation_witness :
    checkResultsField (Json.obj []) = none ∧
    runOpenResults none true (Outcome.ok "") (Outcome.ok (Json.obj []))
      = (none,
        ["Invalid Semgrep results format: \"results\" array not found."]) ∧
    checkResultsField (Json.obj [("results", Json.arr [Json.num 3])])
      = some [Json.num 3] ∧
    runOpenResults none true (Outcome.ok "")
        (Outcome.ok (Json.obj [("results", Json.arr [Json.num 3])]))
      = (some (ingestJson [Json.num 3]), []) :=
  ⟨rfl,
   (ingest_validation none "" (Json.obj [])).2.2.2.1 rfl,
   rfl,
   (ingest_validation none ""
     (Json.obj [("results", Json.arr [Json.num 3])])).2.2.2.2 [Json.num 3] rfl⟩
